import Mathlib

/-! Verification of `blob-util` (src/blob-util.ts).

A shallow embedding of the blob-util transcoding library.

Modelling conventions:
* A JavaScript string is a `List Nat` of UTF-16 code units (`String.length`,
  `charCodeAt`, `fromCharCode` operate on code units, so this is the faithful
  granularity).
* An `ArrayBuffer` / `Uint8Array` is a `List Nat` of byte values; writing into a
  `Uint8Array` truncates with `% 256` (`ToUint8`).
* A `Blob` is an immutable pair of a byte sequence and a content-type tag.
* Asynchronous `FileReader` reads are modelled by an explicit `ReadEvent`
  (the single `loadend`/`error` signal that settles the promise); a settled
  promise is an `Except JSError α` value, which settles exactly once by
  construction.
* Host primitives that are not part of the repository (`atob`/`btoa`,
  `new Blob`, the legacy `BlobBuilder`s, `FileReader`, `canvas`) are modelled
  from their documented behavior; each such definition says so in its
  doc comment.
-/

namespace BlobUtil

/-- Code units of a Lean string literal, used to write concrete JavaScript
strings (all literals used here are in the basic multilingual plane, where
code units and code points coincide). -/
def jsStr (s : String) : List Nat :=
  s.toList.map Char.toNat

/-- JavaScript `String.fromCharCode`: produces the character with the given code unit
(the argument is taken modulo 2^16). -/
def fromCharCode (n : Nat) : Nat :=
  n % 65536

/-- Storing a number into a `Uint8Array` slot truncates it modulo 2^8. -/
def toUint8 (n : Nat) : Nat :=
  n % 256

/-- Source `binaryStringToArrayBuffer` (src/blob-util.ts:42-51): allocates a buffer of
`binary.length` bytes and writes `binary.charCodeAt(i)` into slot `i`.
`charCodeAt i` is the i-th code unit; the `Uint8Array` store truncates mod 256. -/
def binaryStringToArrayBuffer (binary : List Nat) : List Nat :=
  binary.map toUint8

/-- Source `arrayBufferToBinaryString` (src/blob-util.ts:58-67): starts from the empty
string and appends `String.fromCharCode(bytes[i])` for each byte in order. -/
def arrayBufferToBinaryString (buffer : List Nat) : List Nat :=
  buffer.foldl (fun binary b => binary ++ [fromCharCode b]) []

/-- A JavaScript error value, identified (as the source does) by its `name`. -/
structure JSError where
  name : List Nat
  deriving DecidableEq

def typeErrorName : List Nat := jsStr "TypeError"

/-- The `TypeError` thrown by e.g. `null[1]` in `dataURLToBlob`. -/
def typeError : JSError := ⟨typeErrorName⟩

/-- The `ReferenceError` raised by looking up an undeclared global
(`WebKitBlobBuilder` when no builder exists). -/
def referenceError : JSError := ⟨jsStr "ReferenceError"⟩

/-- The `InvalidCharacterError` thrown by `atob`/`btoa` on bad input. -/
def invalidCharacterError : JSError := ⟨jsStr "InvalidCharacterError"⟩

/-- A `Blob`: an immutable byte sequence tagged with a content type. -/
structure Blob where
  content : List Nat
  type : List Nat
  deriving DecidableEq

/-! ## Base64 (host `btoa` / `atob`, modelled from the spec)

Modelled from the spec: the repository delegates base64 to the host's standard
base64 codec (`btoa`/`atob`, the WHATWG forgiving-base64 algorithm); the codec
itself is not part of src/. -/

/-- The standard base64 alphabet, as code units. -/
def b64Chars : List Nat :=
  jsStr "ABCDEFGHIJKLMNOPQRSTUVWXYZabcdefghijklmnopqrstuvwxyz0123456789+/"

/-- Code unit for the sextet `n` (`n < 64` in every reachable use). -/
def sextetToChar (n : Nat) : Nat :=
  b64Chars.getD n 65

/-- Alphabet position of a code unit, `none` for characters outside the
alphabet (decoding then fails). -/
def charToSextet (c : Nat) : Option Nat :=
  b64Chars.findIdx? (fun x => x == c)

/-- Groups of 6 bits of the input bytes, high bits first (no padding). -/
def bytesToSextets : List Nat → List Nat
  | [] => []
  | [a] => [a / 4, a % 4 * 16]
  | [a, b] => [a / 4, a % 4 * 16 + b / 16, b % 16 * 4]
  | a :: b :: c :: rest =>
      a / 4 :: (a % 4 * 16 + b / 16) :: (b % 16 * 4 + c / 64) :: c % 64 ::
        bytesToSextets rest

/-- Reassembles bytes from sextets; a trailing group of 2 or 3 sextets yields
1 or 2 bytes, a lone trailing sextet (invalid base64) yields nothing. -/
def sextetsToBytes : List Nat → List Nat
  | s1 :: s2 :: s3 :: s4 :: rest =>
      (s1 * 4 + s2 / 16) :: (s2 % 16 * 16 + s3 / 4) :: (s3 % 4 * 64 + s4) ::
        sextetsToBytes rest
  | [s1, s2, s3] => [s1 * 4 + s2 / 16, s2 % 16 * 16 + s3 / 4]
  | [s1, s2] => [s1 * 4 + s2 / 16]
  | _ => []

/-- Modelled from the spec: host `btoa` encoding core — standard base64 with
`=` padding (61 is the code unit of the padding character). -/
def base64EncodeBytes : List Nat → List Nat
  | [] => []
  | [a] => [sextetToChar (a / 4), sextetToChar (a % 4 * 16), 61, 61]
  | [a, b] => [sextetToChar (a / 4), sextetToChar (a % 4 * 16 + b / 16),
               sextetToChar (b % 16 * 4), 61]
  | a :: b :: c :: rest =>
      sextetToChar (a / 4) :: sextetToChar (a % 4 * 16 + b / 16) ::
      sextetToChar (b % 16 * 4 + c / 64) :: sextetToChar (c % 64) ::
        base64EncodeBytes rest

/-- The `=` padding `base64EncodeBytes` appends, as a function of the input
length (used to state structural lemmas about the encoder). -/
def padList (l : List Nat) : List Nat :=
  if l.length % 3 = 1 then [61, 61]
  else if l.length % 3 = 2 then [61]
  else []

/-- ASCII whitespace, which forgiving-base64 strips before decoding. -/
def isB64Whitespace (c : Nat) : Bool :=
  c == 9 || c == 10 || c == 12 || c == 13 || c == 32

/-- Removes one or two trailing `=` characters (forgiving-base64 step 2). -/
def removePad (s : List Nat) : List Nat :=
  if s.getLast? = some 61 then
    if s.dropLast.getLast? = some 61 then s.dropLast.dropLast else s.dropLast
  else s

/-- Modelled from the spec: host `atob` decoding core — the WHATWG
forgiving-base64 algorithm (strip whitespace, strip padding when the length is
a multiple of 4, fail on length ≡ 1 mod 4 or characters outside the alphabet,
then reassemble bytes, discarding leftover bits of a final partial group). -/
def base64DecodeBytes (input : List Nat) : Option (List Nat) :=
  let s0 := input.filter (fun c => !isB64Whitespace c)
  let s := if s0.length % 4 = 0 then removePad s0 else s0
  if s.length % 4 = 1 then none
  else
    match s.mapM charToSextet with
    | none => none
    | some sextets => some (sextetsToBytes sextets)

/-- Modelled from the spec: host `btoa` — throws `InvalidCharacterError` when a
code unit exceeds 255, otherwise returns the base64 encoding of the code
units taken as bytes. -/
def btoa (s : List Nat) : Except JSError (List Nat) :=
  if ∀ c ∈ s, c < 256 then .ok (base64EncodeBytes s)
  else .error invalidCharacterError

/-- Modelled from the spec: host `atob` — throws `InvalidCharacterError` on
malformed base64, otherwise returns the binary string whose characters are the
decoded bytes. -/
def atob (s : List Nat) : Except JSError (List Nat) :=
  match base64DecodeBytes s with
  | some bytes => .ok (bytes.map fromCharCode)
  | none => .error invalidCharacterError

/-! ## `createBlob` (src/blob-util.ts:80-103) -/

/-- The `properties` argument of `createBlob`: absent, a bare content-type
string, or an options object with an optional `type` field. -/
inductive BlobProps where
  | undef
  | str (s : List Nat)
  | obj (type : Option (List Nat))
  deriving DecidableEq

/-- The content type requested by `properties` after the source's
normalization `properties = properties || {}` and the string shorthand
`properties = { type: properties }`. -/
def propsType : BlobProps → Option (List Nat)
  | .undef => none
  | .str s => some s
  | .obj t => t

/-- Modelled from the spec: the host environment `createBlob` probes — the
canonical `new Blob(parts, properties)` call (which either returns a blob or
throws), and the four optional legacy builder globals `BlobBuilder`,
`MSBlobBuilder`, `MozBlobBuilder`, `WebKitBlobBuilder` (each, when present,
appends the parts in order and finalizes with the requested content type). -/
structure BlobEnv where
  newBlobCall : List (List Nat) → Option (List Nat) → Except JSError Blob
  blobBuilder : Option (List (List Nat) → Option (List Nat) → Blob)
  msBlobBuilder : Option (List (List Nat) → Option (List Nat) → Blob)
  mozBlobBuilder : Option (List (List Nat) → Option (List Nat) → Blob)
  webKitBlobBuilder : Option (List (List Nat) → Option (List Nat) → Blob)

/-- Modelled from the spec: the canonical `new Blob` construction in a
conforming environment — concatenates the parts and tags the result with the
requested type (empty when none is given). -/
def hostNewBlob (parts : List (List Nat)) (type : Option (List Nat)) : Blob :=
  { content := parts.flatten, type := type.getD [] }

/-- The legacy-builder arm of `createBlob` (src/blob-util.ts:93-101): picks the
first of `BlobBuilder`, `MSBlobBuilder`, `MozBlobBuilder` that is declared,
else evaluates `WebKitBlobBuilder` — which raises a `ReferenceError` when that
global is also undeclared. -/
def legacyFallback (env : BlobEnv) (parts : List (List Nat))
    (ptype : Option (List Nat)) : Except JSError Blob :=
  match env.blobBuilder <|> env.msBlobBuilder <|> env.mozBlobBuilder <|>
      env.webKitBlobBuilder with
  | some builder => .ok (builder parts ptype)
  | none => .error referenceError

/-- Source `createBlob` (src/blob-util.ts:80-103): defaults the arguments, tries
`new Blob(parts, properties)`, rethrows any caught error whose `name` is not
`TypeError`, and otherwise falls back to the legacy builder chain. -/
def createBlob (env : BlobEnv) (partsArg : Option (List (List Nat)))
    (propertiesArg : BlobProps) : Except JSError Blob :=
  let parts := partsArg.getD []
  let ptype := propsType propertiesArg
  match env.newBlobCall parts ptype with
  | .ok blob => .ok blob
  | .error e =>
    if e.name ≠ typeErrorName then .error e
    else legacyFallback env parts ptype

/-! ## `FileReader`-based reads (src/blob-util.ts:136-154, 292-302) -/

/-- Modelled from the spec: the single settling signal of a `FileReader` read —
either `loadend` with a possibly-absent (`null`) result, or `error`.  The
result delivered on a successful read of a blob is the blob's own content. -/
inductive ReadEvent where
  | loadend (resultPresent : Bool)
  | error (e : JSError)
  deriving DecidableEq

/-- Modelled from the spec: `FileReader.readAsBinaryString` delivers the blob's
bytes, one character per byte. -/
def hostReadAsBinaryString (blob : Blob) : List Nat :=
  blob.content.map fromCharCode

/-- Modelled from the spec: `FileReader.readAsArrayBuffer` delivers the blob's
bytes. -/
def hostReadAsArrayBuffer (blob : Blob) : List Nat :=
  blob.content

/-- Source `blobToBinaryString` (src/blob-util.ts:136-154): probes
`reader.readAsBinaryString`; when present, resolves with the text result
(the source appends an empty string default, turning an absent result into the empty string); otherwise reads
an `ArrayBuffer` and resolves with `arrayBufferToBinaryString` of it; an
`error` signal rejects with the propagated error. -/
def blobToBinaryString (hasBinaryString : Bool) (blob : Blob) (ev : ReadEvent) :
    Except JSError (List Nat) :=
  match ev with
  | .error e => .error e
  | .loadend present =>
    if hasBinaryString then
      .ok (if present then hostReadAsBinaryString blob else [])
    else
      .ok (arrayBufferToBinaryString
        (if present then hostReadAsArrayBuffer blob else []))

/-- Source `blobToArrayBuffer` (src/blob-util.ts:292-302): always a buffer read;
`result || new ArrayBuffer(0)` turns an absent result into an empty buffer;
an `error` signal rejects with the propagated error. -/
def blobToArrayBuffer (blob : Blob) (ev : ReadEvent) :
    Except JSError (List Nat) :=
  match ev with
  | .loadend present =>
      .ok (if present then hostReadAsArrayBuffer blob else [])
  | .error e => .error e

/-- Source `blobToBase64String` (src/blob-util.ts:182-184):
`blobToBinaryString(blob).then(btoa)`. -/
def blobToBase64String (hasBinaryString : Bool) (blob : Blob) (ev : ReadEvent) :
    Except JSError (List Nat) :=
  (blobToBinaryString hasBinaryString blob ev).bind btoa

/-- Source `blobToDataURL` (src/blob-util.ts:207-211): formats
`data: + blob.type + ;base64, + base64String` over `blobToBase64String`. -/
def blobToDataURL (hasBinaryString : Bool) (blob : Blob) (ev : ReadEvent) :
    Except JSError (List Nat) :=
  (blobToBase64String hasBinaryString blob ev).map
    (fun base64String => jsStr "data:" ++ blob.type ++ jsStr ";base64," ++ base64String)

/-! ## `dataURLToBlob` (src/blob-util.ts:193-199) -/

/-- The code units of `"data:"`, the literal part of the pattern
`/data:([^;]+)/`. -/
def dataScheme : List Nat := jsStr "data:"

/-- Model of `dataURL.match` with the data-colon capture pattern
(src/blob-util.ts:194): scans for the
first position where `data:` is followed by at least one non-`;` character and
returns the maximal such run (the capture group); `none` when the regex does
not match anywhere (in which case the source's `[1]` access throws a
`TypeError`). -/
def matchDataType : List Nat → Option (List Nat)
  | [] => none
  | c :: rest =>
    if dataScheme.isPrefixOf (c :: rest) then
      let cap := ((c :: rest).drop dataScheme.length).takeWhile (fun x => x != 59)
      if cap.isEmpty then matchDataType rest else some cap
    else matchDataType rest

/-- Model of `dataURL.replace` with the pattern caret-noncomma-plus-comma
(src/blob-util.ts:195): removes the
leading maximal nonempty run of non-`,` characters together with the comma
that follows it; when the pattern does not match (leading comma, or no comma
at all) the string is unchanged. -/
def stripThroughComma (s : List Nat) : List Nat :=
  let pre := s.takeWhile (fun c => c != 44)
  if pre.isEmpty then s
  else
    match s.drop pre.length with
    | 44 :: rest => rest
    | _ => s

/-- Source `dataURLToBlob` (src/blob-util.ts:193-199): extracts the content type with
`/data:([^;]+)/` (a failed match throws `TypeError` at the `[1]` access),
strips everything through the first comma, base64-decodes the remainder with
`atob`, packs the binary string into a buffer, and builds the blob with
`createBlob([buff], { type: type })`. -/
def dataURLToBlob (env : BlobEnv) (dataURL : List Nat) : Except JSError Blob :=
  match matchDataType dataURL with
  | none => .error typeError
  | some type =>
    let base64 := stripThroughComma dataURL
    match atob base64 with
    | .error e => .error e
    | .ok bin =>
      let buff := binaryStringToArrayBuffer bin
      createBlob env (some [buff]) (.obj (some type))

/-- The data-URL round trip of testable property 2:
`dataURLToBlob(blobToDataURL(o))` as one settled composition. -/
def dataURLRoundTrip (env : BlobEnv) (hasBinaryString : Bool) (blob : Blob)
    (ev : ReadEvent) : Except JSError Blob :=
  (blobToDataURL hasBinaryString blob ev).bind (dataURLToBlob env)

/-! ## `canvasToBlob` (src/blob-util.ts:244-251) -/

/-- Modelled from the spec: a rendering surface as `canvasToBlob` sees it —
whether the host exposes the direct `toBlob` primitive, the blob its single
completion callback delivers for given `type`/`quality` arguments, and the
synchronous `toDataURL` serialization for the same arguments.  The `quality`
argument is an opaque token that is only ever forwarded. -/
structure Canvas where
  hasToBlob : Bool
  toBlobResult : Option (List Nat) → Option Nat → Blob
  toDataURL : Option (List Nat) → Option Nat → List Nat

/-- Source `canvasToBlob` (src/blob-util.ts:244-251): when `canvas.toBlob` is a
function, resolves with whatever the native callback delivers (no failure
path); otherwise resolves with `dataURLToBlob(canvas.toDataURL(type, quality))`. -/
def canvasToBlob (env : BlobEnv) (canvas : Canvas) (type : Option (List Nat))
    (quality : Option Nat) : Except JSError Blob :=
  if canvas.hasToBlob then .ok (canvas.toBlobResult type quality)
  else dataURLToBlob env (canvas.toDataURL type quality)

/-! ## Concrete environments and inputs used by witnesses -/

/-- A conforming modern environment: the canonical constructor works and no
legacy builder global is declared. -/
def nativeEnv : BlobEnv :=
  { newBlobCall := fun parts t => .ok (hostNewBlob parts t)
    blobBuilder := none
    msBlobBuilder := none
    mozBlobBuilder := none
    webKitBlobBuilder := none }

/-- An environment whose canonical constructor throws a `RangeError`. -/
def rangeErrorEnv : BlobEnv :=
  { nativeEnv with newBlobCall := fun _ _ => .error ⟨jsStr "RangeError"⟩ }

/-- A legacy environment: the canonical constructor throws a `TypeError` and
no builder global is declared. -/
def bareLegacyEnv : BlobEnv :=
  { nativeEnv with newBlobCall := fun _ _ => .error typeError }

/-- A legacy environment where only `MozBlobBuilder` is declared. -/
def mozOnlyEnv : BlobEnv :=
  { bareLegacyEnv with mozBlobBuilder := some hostNewBlob }

/-- A surface whose host exposes the direct `toBlob` primitive. -/
def withToBlobCanvas : Canvas :=
  { hasToBlob := true
    toBlobResult := fun t _ => { content := [137, 80], type := t.getD [] }
    toDataURL := fun _ _ => [] }

/-- A surface whose host lacks `toBlob` and only serializes to a data URL. -/
def noToBlobCanvas : Canvas :=
  { hasToBlob := false
    toBlobResult := fun _ _ => { content := [], type := [] }
    toDataURL := fun _ _ => jsStr "data:text/plain;base64,aGVsbG8=" }

/-! ## Helper lemmas -/

theorem arrayBufferToBinaryString_eq_map (buffer : List Nat) :
    arrayBufferToBinaryString buffer = buffer.map fromCharCode := by
  have aux : ∀ (buf acc : List Nat),
      buf.foldl (fun binary b => binary ++ [fromCharCode b]) acc
        = acc ++ buf.map fromCharCode := by
    intro buf
    induction buf with
    | nil => intro acc; simp
    | cons b rest ih => intro acc; simp [ih]
  simpa using aux buffer []

theorem sextetToChar_mem (n : Nat) : sextetToChar n ∈ b64Chars := by
  unfold sextetToChar
  rcases Nat.lt_or_ge n b64Chars.length with h | h
  · rw [List.getD_eq_getElem?_getD, List.getElem?_eq_getElem h]
    exact List.getElem_mem h
  · rw [List.getD_eq_getElem?_getD, List.getElem?_eq_none h]
    decide

theorem not_mem_b64Chars_61 : (61 : Nat) ∉ b64Chars := by decide

theorem b64Chars_not_ws : ∀ c ∈ b64Chars, isB64Whitespace c = false := by decide

theorem charToSextet_sextetToChar : ∀ n < 64,
    charToSextet (sextetToChar n) = some n := by decide

theorem bytesToSextets_lt : ∀ (l : List Nat), (∀ b ∈ l, b < 256) →
    ∀ s ∈ bytesToSextets l, s < 64
  | [], _, s, hs => by simp [bytesToSextets] at hs
  | [a], h, s, hs => by
      have ha := h a (by simp)
      simp only [bytesToSextets, List.mem_cons, List.not_mem_nil, or_false] at hs
      rcases hs with rfl | rfl <;> omega
  | [a, b], h, s, hs => by
      have ha := h a (by simp)
      have hb := h b (by simp)
      simp only [bytesToSextets, List.mem_cons, List.not_mem_nil, or_false] at hs
      rcases hs with rfl | rfl | rfl <;> omega
  | a :: b :: c :: rest, h, s, hs => by
      have ha := h a (by simp)
      have hb := h b (by simp)
      have hc := h c (by simp)
      simp only [bytesToSextets, List.mem_cons] at hs
      rcases hs with rfl | rfl | rfl | rfl | hs
      · omega
      · omega
      · omega
      · omega
      · exact bytesToSextets_lt rest (fun x hx => h x (by simp [hx])) s hs

theorem sextetsToBytes_bytesToSextets : ∀ (l : List Nat), (∀ b ∈ l, b < 256) →
    sextetsToBytes (bytesToSextets l) = l
  | [], _ => rfl
  | [a], h => by
      have ha := h a (by simp)
      show [a / 4 * 4 + a % 4 * 16 / 16] = [a]
      have h1 : a / 4 * 4 + a % 4 * 16 / 16 = a := by omega
      rw [h1]
  | [a, b], h => by
      have ha := h a (by simp)
      have hb := h b (by simp)
      show [a / 4 * 4 + (a % 4 * 16 + b / 16) / 16,
            (a % 4 * 16 + b / 16) % 16 * 16 + b % 16 * 4 / 4] = [a, b]
      have h1 : a / 4 * 4 + (a % 4 * 16 + b / 16) / 16 = a := by omega
      have h2 : (a % 4 * 16 + b / 16) % 16 * 16 + b % 16 * 4 / 4 = b := by omega
      rw [h1, h2]
  | a :: b :: c :: rest, h => by
      have ha := h a (by simp)
      have hb := h b (by simp)
      have hc := h c (by simp)
      have ih := sextetsToBytes_bytesToSextets rest (fun x hx => h x (by simp [hx]))
      show (a / 4 * 4 + (a % 4 * 16 + b / 16) / 16) ::
           ((a % 4 * 16 + b / 16) % 16 * 16 + (b % 16 * 4 + c / 64) / 4) ::
           ((b % 16 * 4 + c / 64) % 4 * 64 + c % 64) ::
           sextetsToBytes (bytesToSextets rest) = a :: b :: c :: rest
      rw [ih]
      have h1 : a / 4 * 4 + (a % 4 * 16 + b / 16) / 16 = a := by omega
      have h2 : (a % 4 * 16 + b / 16) % 16 * 16 + (b % 16 * 4 + c / 64) / 4 = b := by
        omega
      have h3 : (b % 16 * 4 + c / 64) % 4 * 64 + c % 64 = c := by omega
      rw [h1, h2, h3]

theorem base64EncodeBytes_eq : ∀ (l : List Nat),
    base64EncodeBytes l = (bytesToSextets l).map sextetToChar ++ padList l
  | [] => rfl
  | [a] => rfl
  | [a, b] => rfl
  | a :: b :: c :: rest => by
      have ih := base64EncodeBytes_eq rest
      have hpad : padList (a :: b :: c :: rest) = padList rest := by
        unfold padList
        have hmod : (a :: b :: c :: rest).length % 3 = rest.length % 3 := by
          simp [List.length_cons]
          omega
        rw [hmod]
      show sextetToChar (a / 4) :: sextetToChar (a % 4 * 16 + b / 16) ::
           sextetToChar (b % 16 * 4 + c / 64) :: sextetToChar (c % 64) ::
           base64EncodeBytes rest
         = (bytesToSextets (a :: b :: c :: rest)).map sextetToChar
             ++ padList (a :: b :: c :: rest)
      rw [hpad, ih]
      rfl

theorem bytesToSextets_length : ∀ (l : List Nat),
    (bytesToSextets l).length =
      l.length / 3 * 4 + l.length % 3 + (if l.length % 3 = 0 then 0 else 1)
  | [] => rfl
  | [a] => by simp [bytesToSextets]
  | [a, b] => by simp [bytesToSextets]
  | a :: b :: c :: rest => by
      have ih := bytesToSextets_length rest
      simp only [bytesToSextets, List.length_cons, ih]
      split_ifs <;> omega

theorem getLast_ne_61 (body : List Nat) (hb : ∀ c ∈ body, c ≠ 61) :
    body.getLast? ≠ some 61 := by
  cases hg : body.getLast? with
  | none => simp
  | some x =>
    have hx : x ∈ body := List.mem_of_mem_getLast? hg
    simpa using hb x hx

theorem removePad_append_two (body : List Nat) :
    removePad (body ++ [61, 61]) = body := by
  unfold removePad
  have hsplit : body ++ [61, 61] = (body ++ [61]) ++ [61] := by simp
  rw [hsplit, List.getLast?_concat, if_pos rfl, List.dropLast_concat,
    List.getLast?_concat, if_pos rfl, List.dropLast_concat]

theorem removePad_append_one (body : List Nat) (hb : ∀ c ∈ body, c ≠ 61) :
    removePad (body ++ [61]) = body := by
  unfold removePad
  rw [List.getLast?_concat, if_pos rfl, List.dropLast_concat,
    if_neg (getLast_ne_61 body hb)]

theorem removePad_no_pad (body : List Nat) (hb : ∀ c ∈ body, c ≠ 61) :
    removePad body = body := by
  unfold removePad
  rw [if_neg (getLast_ne_61 body hb)]

theorem padList_mem (l : List Nat) : ∀ c ∈ padList l, c = 61 := by
  intro c hc
  unfold padList at hc
  split_ifs at hc
  · simpa using hc
  · simpa using hc
  · simp at hc

theorem filter_ws_encode (l : List Nat) :
    (base64EncodeBytes l).filter (fun c => !isB64Whitespace c)
      = base64EncodeBytes l := by
  rw [List.filter_eq_self]
  intro c hc
  rw [base64EncodeBytes_eq] at hc
  rcases List.mem_append.mp hc with hc | hc
  · rcases List.mem_map.mp hc with ⟨n, _, rfl⟩
    have hmem := sextetToChar_mem n
    have hws := b64Chars_not_ws _ hmem
    simp [hws]
  · have hc61 := padList_mem l c hc
    subst hc61
    decide

theorem mapM_charToSextet : ∀ (ss : List Nat), (∀ s ∈ ss, s < 64) →
    (ss.map sextetToChar).mapM charToSextet = some ss
  | [], _ => rfl
  | s :: rest, h => by
      have hs := charToSextet_sextetToChar s (h s (by simp))
      have ih := mapM_charToSextet rest (fun x hx => h x (by simp [hx]))
      rw [List.map_cons, List.mapM_cons, hs, ih]
      rfl

/-- The forgiving-base64 decoder inverts the encoder on every byte sequence. -/
theorem base64DecodeBytes_encodeBytes (l : List Nat) (h : ∀ b ∈ l, b < 256) :
    base64DecodeBytes (base64EncodeBytes l) = some l := by
  have hlen := bytesToSextets_length l
  simp only [base64DecodeBytes]
  rw [filter_ws_encode, base64EncodeBytes_eq]
  set body := (bytesToSextets l).map sextetToChar with hbodyDef
  have hbody_ne : ∀ c ∈ body, c ≠ 61 := by
    intro c hc hceq
    subst hceq
    rcases List.mem_map.mp hc with ⟨n, _, hn⟩
    exact not_mem_b64Chars_61 (hn ▸ sextetToChar_mem n)
  have hblen : body.length = (bytesToSextets l).length := by
    rw [hbodyDef]
    exact List.length_map ..
  have hmap := mapM_charToSextet (bytesToSextets l) (bytesToSextets_lt l h)
  have hfin := sextetsToBytes_bytesToSextets l h
  have hr : l.length % 3 = 0 ∨ l.length % 3 = 1 ∨ l.length % 3 = 2 := by omega
  rcases hr with hr | hr | hr
  · have hpad : padList l = [] := by
      unfold padList
      rw [hr]
      rfl
    have hblen2 : body.length % 4 = 0 := by
      rw [hblen, hlen]
      split_ifs
      all_goals omega
    rw [hpad, List.append_nil, if_pos hblen2, removePad_no_pad body hbody_ne,
      if_neg (by omega : ¬ body.length % 4 = 1), hbodyDef, hmap]
    exact congrArg some hfin
  · have hpad : padList l = [61, 61] := by
      unfold padList
      rw [hr]
      rfl
    have hblen2 : body.length = l.length / 3 * 4 + 2 := by
      rw [hblen, hlen]
      split_ifs <;> omega
    have h4 : (body ++ [61, 61]).length % 4 = 0 := by
      rw [List.length_append, hblen2]
      show (l.length / 3 * 4 + 2 + 2) % 4 = 0
      omega
    rw [hpad, if_pos h4, removePad_append_two body,
      if_neg (by omega : ¬ body.length % 4 = 1), hbodyDef, hmap]
    exact congrArg some hfin
  · have hpad : padList l = [61] := by
      unfold padList
      rw [hr]
      rfl
    have hblen2 : body.length = l.length / 3 * 4 + 3 := by
      rw [hblen, hlen]
      split_ifs <;> omega
    have h4 : (body ++ [61]).length % 4 = 0 := by
      rw [List.length_append, hblen2]
      show (l.length / 3 * 4 + 3 + 1) % 4 = 0
      omega
    rw [hpad, if_pos h4, removePad_append_one body hbody_ne,
      if_neg (by omega : ¬ body.length % 4 = 1), hbodyDef, hmap]
    exact congrArg some hfin

theorem map_fromCharCode_id (l : List Nat) (h : ∀ x ∈ l, x < 256) :
    l.map fromCharCode = l := by
  have := List.map_congr_left (l := l) (f := fromCharCode) (g := id)
    (fun x hx => by
      have := h x hx
      unfold fromCharCode
      simp only [id]
      omega)
  rw [this, List.map_id]

theorem takeWhile_bne_append (d : Nat) (xs ys : List Nat)
    (h : ∀ x ∈ xs, x ≠ d) :
    (xs ++ d :: ys).takeWhile (fun c => c != d) = xs := by
  induction xs with
  | nil => simp
  | cons x xs ih =>
    have hx : (x != d) = true := by
      simpa using h x (by simp)
    simp only [List.cons_append, List.takeWhile_cons, hx, if_true]
    rw [ih (fun y hy => h y (by simp [hy]))]

/-! # Claim theorems -/

/-- C1: for every byte sequence `b`,
`binaryStringToArrayBuffer (arrayBufferToBinaryString b) = b`, and for every
valid binary string `s` (every code unit in 0..255),
`arrayBufferToBinaryString (binaryStringToArrayBuffer s) = s`, with order and
length preserved exactly. -/
theorem binaryString_arrayBuffer_roundtrip (b s : List Nat)
    (hb : ∀ x ∈ b, x < 256) (hs : ∀ c ∈ s, c < 256) :
    binaryStringToArrayBuffer (arrayBufferToBinaryString b) = b ∧
    arrayBufferToBinaryString (binaryStringToArrayBuffer s) = s := by
  constructor
  · rw [arrayBufferToBinaryString_eq_map]
    unfold binaryStringToArrayBuffer
    rw [List.map_map]
    have := List.map_congr_left (l := b) (f := toUint8 ∘ fromCharCode) (g := id)
      (fun x hx => by
        have := hb x hx
        simp only [Function.comp, id]
        unfold toUint8 fromCharCode
        omega)
    rw [this, List.map_id]
  · unfold binaryStringToArrayBuffer
    rw [arrayBufferToBinaryString_eq_map, List.map_map]
    have := List.map_congr_left (l := s) (f := fromCharCode ∘ toUint8) (g := id)
      (fun x hx => by
        have := hs x hx
        simp only [Function.comp, id]
        unfold toUint8 fromCharCode
        omega)
    rw [this, List.map_id]

theorem binaryString_arrayBuffer_roundtrip_witness :
    binaryStringToArrayBuffer (arrayBufferToBinaryString [104, 0, 255])
      = [104, 0, 255] ∧
    arrayBufferToBinaryString (binaryStringToArrayBuffer (jsStr "hello"))
      = jsStr "hello" :=
  ⟨(binaryString_arrayBuffer_roundtrip [104, 0, 255] (jsStr "hello")
      (by decide) (by decide)).1,
   (binaryString_arrayBuffer_roundtrip [104, 0, 255] (jsStr "hello")
      (by decide) (by decide)).2⟩

/-- C10: `binaryStringToArrayBuffer` is total on all strings: the output
always has the input's length, and byte `i` is the `i`-th code unit reduced
modulo 256 (`Uint8Array` truncation), so code units above 255 are silently
truncated rather than rejected. -/
theorem binaryStringToArrayBuffer_total (s : List Nat) :
    (binaryStringToArrayBuffer s).length = s.length ∧
    ∀ i, i < s.length →
      (binaryStringToArrayBuffer s).getD i 0 = s.getD i 0 % 256 := by
  constructor
  · exact List.length_map ..
  · intro i hi
    unfold binaryStringToArrayBuffer
    rw [List.getD_eq_getElem?_getD, List.getD_eq_getElem?_getD,
      List.getElem?_map, List.getElem?_eq_getElem hi]
    rfl

theorem binaryStringToArrayBuffer_total_witness :
    (binaryStringToArrayBuffer [700]).length = ([700] : List Nat).length ∧
    (binaryStringToArrayBuffer [700]).getD 0 0
      = ([700] : List Nat).getD 0 0 % 256 :=
  ⟨(binaryStringToArrayBuffer_total [700]).1,
   (binaryStringToArrayBuffer_total [700]).2 0 (by decide)⟩

/-- On a successful read with a present result, `blobToBinaryString` resolves
with the blob's bytes as characters, on either capability path. -/
theorem blobToBinaryString_loadend (hb : Bool) (blob : Blob) :
    blobToBinaryString hb blob (.loadend true)
      = .ok (blob.content.map fromCharCode) := by
  cases hb with
  | true => rfl
  | false =>
    show Except.ok (arrayBufferToBinaryString blob.content) = _
    rw [arrayBufferToBinaryString_eq_map]

/-- C3: `createBlob` attempts the canonical `Blob` constructor first; it
falls back to the legacy builder chain only when that construction throws an
error whose `name` is `TypeError`; any error of any other class is rethrown
unchanged, with no fallback attempted. -/
theorem createBlob_error_routing (env : BlobEnv)
    (partsArg : Option (List (List Nat))) (props : BlobProps) :
    (∀ blob, env.newBlobCall (partsArg.getD []) (propsType props) = .ok blob →
      createBlob env partsArg props = .ok blob) ∧
    (∀ e, env.newBlobCall (partsArg.getD []) (propsType props) = .error e →
      e.name ≠ typeErrorName → createBlob env partsArg props = .error e) ∧
    (∀ e, env.newBlobCall (partsArg.getD []) (propsType props) = .error e →
      e.name = typeErrorName →
      createBlob env partsArg props
        = legacyFallback env (partsArg.getD []) (propsType props)) := by
  refine ⟨?_, ?_, ?_⟩
  · intro blob hok
    simp only [createBlob]
    rw [hok]
  · intro e herr hne
    simp only [createBlob]
    rw [herr]
    show (if e.name ≠ typeErrorName then Except.error e
      else legacyFallback env (partsArg.getD []) (propsType props))
        = Except.error e
    rw [if_pos hne]
  · intro e herr heq
    simp only [createBlob]
    rw [herr]
    show (if e.name ≠ typeErrorName then Except.error e
      else legacyFallback env (partsArg.getD []) (propsType props))
        = legacyFallback env (partsArg.getD []) (propsType props)
    rw [if_neg (fun hne => hne heq)]

theorem createBlob_error_routing_witness :
    createBlob rangeErrorEnv (some []) .undef = .error ⟨jsStr "RangeError"⟩ :=
  (createBlob_error_routing rangeErrorEnv (some []) .undef).2.1
    ⟨jsStr "RangeError"⟩ rfl (by decide)

/-- C6: when the canonical constructor throws a `TypeError` and none of
`BlobBuilder`, `MSBlobBuilder`, `MozBlobBuilder`, `WebKitBlobBuilder` exists,
`createBlob` fails with the `ReferenceError` of the final undeclared lookup
rather than returning any blob. -/
theorem createBlob_unsupported_env (env : BlobEnv)
    (partsArg : Option (List (List Nat))) (props : BlobProps) (e : JSError)
    (h1 : env.newBlobCall (partsArg.getD []) (propsType props) = .error e)
    (h2 : e.name = typeErrorName)
    (h3 : env.blobBuilder = none) (h4 : env.msBlobBuilder = none)
    (h5 : env.mozBlobBuilder = none) (h6 : env.webKitBlobBuilder = none) :
    createBlob env partsArg props = .error referenceError := by
  simp only [createBlob]
  rw [h1]
  show (if e.name ≠ typeErrorName then Except.error e
    else legacyFallback env (partsArg.getD []) (propsType props))
      = Except.error referenceError
  rw [if_neg (fun hne => hne h2)]
  unfold legacyFallback
  rw [h3, h4, h5, h6]
  rfl

theorem createBlob_unsupported_env_witness :
    createBlob bareLegacyEnv (some [[104]]) (.str (jsStr "text/plain"))
      = .error referenceError :=
  createBlob_unsupported_env bareLegacyEnv (some [[104]])
    (.str (jsStr "text/plain")) typeError rfl rfl rfl rfl rfl rfl

/-- C5: `blobToBinaryString` resolves with the same binary string on both
capability paths: with the direct text-read mode it resolves with the text
result (empty when absent), without it it resolves with
`arrayBufferToBinaryString` of the buffer read, and the two paths yield equal
outputs on every read event. -/
theorem blobToBinaryString_paths_agree (blob : Blob) (ev : ReadEvent) :
    blobToBinaryString true blob (.loadend true)
      = .ok (hostReadAsBinaryString blob) ∧
    blobToBinaryString true blob (.loadend false) = .ok [] ∧
    blobToBinaryString false blob (.loadend true)
      = .ok (arrayBufferToBinaryString (hostReadAsArrayBuffer blob)) ∧
    blobToBinaryString true blob ev = blobToBinaryString false blob ev := by
  refine ⟨rfl, rfl, rfl, ?_⟩
  cases ev with
  | error e => rfl
  | loadend present =>
    cases present with
    | true =>
      show Except.ok (hostReadAsBinaryString blob)
        = .ok (arrayBufferToBinaryString (hostReadAsArrayBuffer blob))
      rw [arrayBufferToBinaryString_eq_map]
      rfl
    | false => rfl

/-- C9: `blobToArrayBuffer` resolves with the read byte sequence, with an
empty buffer when the result is absent, and rejects with the propagated error
on a failure signal; the promise settles exactly once (an `Except` value). -/
theorem blobToArrayBuffer_behavior (blob : Blob) (e : JSError) :
    blobToArrayBuffer blob (.loadend true) = .ok blob.content ∧
    blobToArrayBuffer blob (.loadend false) = .ok [] ∧
    blobToArrayBuffer blob (.error e) = .error e :=
  ⟨rfl, rfl, rfl⟩

/-- C8: `canvasToBlob` uses the host's direct `toBlob` primitive when
present, resolving with its single completion callback with no failure path;
otherwise it resolves with `dataURLToBlob` of the surface's synchronous
data-URL serialization with the same `type`/`quality` arguments. -/
theorem canvasToBlob_paths (env : BlobEnv) (canvas : Canvas)
    (type : Option (List Nat)) (quality : Option Nat) :
    (canvas.hasToBlob = true →
      canvasToBlob env canvas type quality
        = .ok (canvas.toBlobResult type quality)) ∧
    (canvas.hasToBlob = false →
      canvasToBlob env canvas type quality
        = dataURLToBlob env (canvas.toDataURL type quality)) := by
  constructor
  · intro h
    unfold canvasToBlob
    rw [h]
    rfl
  · intro h
    unfold canvasToBlob
    rw [h]
    rfl

theorem canvasToBlob_paths_witness :
    canvasToBlob nativeEnv withToBlobCanvas none none
      = .ok (withToBlobCanvas.toBlobResult none none) ∧
    canvasToBlob nativeEnv noToBlobCanvas none none
      = dataURLToBlob nativeEnv (noToBlobCanvas.toDataURL none none) :=
  ⟨(canvasToBlob_paths nativeEnv withToBlobCanvas none none).1 rfl,
   (canvasToBlob_paths nativeEnv noToBlobCanvas none none).2 rfl⟩

/-- On a successful read, `blobToDataURL` produces the formatted data URL of
the blob's own type tag and base64-encoded bytes (either capability path). -/
theorem blobToDataURL_loadend_eq (hasBinaryString : Bool) (blob : Blob)
    (h : ∀ x ∈ blob.content, x < 256) :
    blobToDataURL hasBinaryString blob (.loadend true)
      = .ok (jsStr "data:" ++ blob.type ++ jsStr ";base64,"
          ++ base64EncodeBytes blob.content) := by
  unfold blobToDataURL blobToBase64String
  rw [blobToBinaryString_loadend, map_fromCharCode_id blob.content h]
  show (btoa blob.content).map _ = _
  unfold btoa
  rw [if_pos h]
  rfl

/-- C4: `blobToDataURL` resolves with exactly
`"data:" + blob.type + ";base64," + base64(blob.content)`, taking the content
type from the object's own type tag, on either read-capability path. -/
theorem blobToDataURL_format (hasBinaryString : Bool) (blob : Blob)
    (h : ∀ x ∈ blob.content, x < 256) :
    blobToDataURL hasBinaryString blob (.loadend true)
      = .ok (jsStr "data:" ++ blob.type ++ jsStr ";base64,"
          ++ base64EncodeBytes blob.content) :=
  blobToDataURL_loadend_eq hasBinaryString blob h

theorem blobToDataURL_format_witness :
    blobToDataURL true { content := [104, 105], type := jsStr "text/plain" }
        (.loadend true)
      = .ok (jsStr "data:" ++ jsStr "text/plain" ++ jsStr ";base64,"
          ++ base64EncodeBytes [104, 105]) :=
  blobToDataURL_format true
    { content := [104, 105], type := jsStr "text/plain" } (by decide)

/-- C7: `dataURLToBlob "data:text/plain;base64,aGVsbG8="` returns a blob
with content type `"text/plain"` and exactly the five ASCII bytes of
`"hello"`. -/
theorem dataURLToBlob_hello :
    dataURLToBlob nativeEnv (jsStr "data:text/plain;base64,aGVsbG8=")
      = .ok { content := [104, 101, 108, 108, 111], type := jsStr "text/plain" } := by
  rfl

/-- One-step unfolding equation for `matchDataType` on a nonempty string. -/
theorem matchDataType_cons (c : Nat) (rest : List Nat) :
    matchDataType (c :: rest)
      = if dataScheme.isPrefixOf (c :: rest) then
          (let cap := ((c :: rest).drop dataScheme.length).takeWhile
            (fun x => x != 59)
           if cap.isEmpty then matchDataType rest else some cap)
        else matchDataType rest := rfl

/-- The data-colon capture pattern on a string of the shape
`data:<type>;...` captures
exactly `<type>` when the type is nonempty and semicolon-free. -/
theorem matchDataType_formatted (type rest : List Nat)
    (hne : type ≠ []) (hsemi : ∀ c ∈ type, c ≠ 59) :
    matchDataType (jsStr "data:" ++ type ++ 59 :: rest) = some type := by
  have hd : jsStr "data:" = [100, 97, 116, 97, 58] := by decide
  have hds : dataScheme = [100, 97, 116, 97, 58] := by decide
  have hcons : [100, 97, 116, 97, 58] ++ type ++ 59 :: rest
      = 100 :: (97 :: 116 :: 97 :: 58 :: (type ++ 59 :: rest)) := by simp
  rw [hd, hcons, matchDataType_cons, hds]
  have hpref : ([100, 97, 116, 97, 58] : List Nat).isPrefixOf
      (100 :: (97 :: 116 :: 97 :: 58 :: (type ++ 59 :: rest))) = true := by
    simp [List.isPrefixOf]
  rw [if_pos hpref]
  have hdrop : List.drop ([100, 97, 116, 97, 58] : List Nat).length
      (100 :: (97 :: 116 :: 97 :: 58 :: (type ++ 59 :: rest)))
      = type ++ 59 :: rest := rfl
  rw [hdrop, takeWhile_bne_append 59 type rest hsemi]
  cases type with
  | nil => exact absurd rfl hne
  | cons c t => rfl

/-- The replace step removes exactly the leading comma-free segment
together with its trailing comma. -/
theorem stripThroughComma_formatted (pre tail : List Nat)
    (hpre : ∀ c ∈ pre, c ≠ 44) (hne : pre ≠ []) :
    stripThroughComma (pre ++ 44 :: tail) = tail := by
  simp only [stripThroughComma]
  rw [takeWhile_bne_append 44 pre tail hpre]
  cases pre with
  | nil => exact absurd rfl hne
  | cons c t =>
    show (match ((c :: t) ++ 44 :: tail).drop (c :: t).length with
      | 44 :: rest => rest
      | _ => (c :: t) ++ 44 :: tail) = tail
    rw [List.drop_left]

/-- Host `atob` inverts the base64 encoder on byte sequences. -/
theorem atob_encodeBytes (l : List Nat) (h : ∀ b ∈ l, b < 256) :
    atob (base64EncodeBytes l) = .ok l := by
  unfold atob
  rw [base64DecodeBytes_encodeBytes l h]
  show Except.ok (l.map fromCharCode) = .ok l
  rw [map_fromCharCode_id l h]

/-- In an environment whose canonical constructor works, `createBlob` returns
the canonical construction. -/
theorem createBlob_native (env : BlobEnv)
    (henv : ∀ p t, env.newBlobCall p t = .ok (hostNewBlob p t))
    (partsArg : Option (List (List Nat))) (props : BlobProps) :
    createBlob env partsArg props
      = .ok (hostNewBlob (partsArg.getD []) (propsType props)) := by
  simp only [createBlob]
  rw [henv]

/-- Packing into a `Uint8Array` is the identity on genuine byte sequences. -/
theorem binaryStringToArrayBuffer_bytes (l : List Nat) (h : ∀ x ∈ l, x < 256) :
    binaryStringToArrayBuffer l = l := by
  unfold binaryStringToArrayBuffer
  have := List.map_congr_left (l := l) (f := toUint8) (g := id)
    (fun x hx => by
      have := h x hx
      unfold toUint8
      simp only [id]
      omega)
  rw [this, List.map_id]

/-- C2 (counterexample): the data-URL round trip does not preserve every
blob.  With an empty content type the parse of `"data:;base64,"` throws a
`TypeError`; a content type containing a semicolon comes back truncated at the
semicolon; a content type containing a comma derails the base64 segment and the
decode throws an `InvalidCharacterError`. -/
theorem dataURL_roundtrip_counterexample :
    dataURLRoundTrip nativeEnv true { content := [], type := [] }
        (.loadend true) = .error typeError ∧
    dataURLRoundTrip nativeEnv true { content := [], type := [] }
        (.loadend true) ≠ .ok { content := [], type := [] } ∧
    dataURLRoundTrip nativeEnv true { content := [], type := jsStr "text/x;y" }
        (.loadend true) = .ok { content := [], type := jsStr "text/x" } ∧
    dataURLRoundTrip nativeEnv true { content := [], type := jsStr "a,b" }
        (.loadend true) = .error invalidCharacterError := by
  refine ⟨rfl, ?_, rfl, rfl⟩
  intro h
  have e : dataURLRoundTrip nativeEnv true { content := [], type := [] }
      (.loadend true) = Except.error typeError := rfl
  rw [e] at h
  exact Except.noConfusion h

/-- C2 (amended): for every blob whose bytes are in 0..255 and whose
content type is nonempty and contains neither a semicolon nor a comma,
`dataURLToBlob (blobToDataURL o)` yields a blob with identical content type
and identical byte content, in every environment whose canonical constructor
works and on either read-capability path. -/
theorem dataURL_roundtrip_amended (env : BlobEnv) (hb : Bool) (blob : Blob)
    (henv : ∀ p t, env.newBlobCall p t = .ok (hostNewBlob p t))
    (hbytes : ∀ x ∈ blob.content, x < 256)
    (htype : blob.type ≠ [])
    (hsemi : ∀ c ∈ blob.type, c ≠ 59)
    (hcomma : ∀ c ∈ blob.type, c ≠ 44) :
    dataURLRoundTrip env hb blob (.loadend true) = .ok blob := by
  unfold dataURLRoundTrip
  rw [blobToDataURL_loadend_eq hb blob hbytes]
  show dataURLToBlob env (jsStr "data:" ++ blob.type ++ jsStr ";base64,"
    ++ base64EncodeBytes blob.content) = .ok blob
  have hsb : jsStr ";base64," = [59, 98, 97, 115, 101, 54, 52, 44] := by decide
  have harg0 : jsStr "data:" ++ blob.type ++ jsStr ";base64,"
        ++ base64EncodeBytes blob.content
      = jsStr "data:" ++ blob.type
        ++ 59 :: ([98, 97, 115, 101, 54, 52, 44]
            ++ base64EncodeBytes blob.content) := by
    simp [hsb]
  rw [harg0]
  unfold dataURLToBlob
  rw [matchDataType_formatted blob.type
    ([98, 97, 115, 101, 54, 52, 44] ++ base64EncodeBytes blob.content)
    htype hsemi]
  have harg1 : jsStr "data:" ++ blob.type
        ++ 59 :: ([98, 97, 115, 101, 54, 52, 44]
            ++ base64EncodeBytes blob.content)
      = ((jsStr "data:" ++ blob.type) ++ 59 :: [98, 97, 115, 101, 54, 52])
        ++ 44 :: base64EncodeBytes blob.content := by
    simp
  rw [harg1]
  have hd44 : ∀ c ∈ jsStr "data:", c ≠ 44 := by decide
  have hb44 : ∀ c ∈ ([98, 97, 115, 101, 54, 52] : List Nat), c ≠ 44 := by
    decide
  have hpre : ∀ c ∈ (jsStr "data:" ++ blob.type)
      ++ 59 :: [98, 97, 115, 101, 54, 52], c ≠ 44 := by
    intro c hc
    rcases List.mem_append.mp hc with h1 | h2
    · rcases List.mem_append.mp h1 with h3 | h4
      · exact hd44 c h3
      · exact hcomma c h4
    · rcases List.mem_cons.mp h2 with rfl | h5
      · decide
      · exact hb44 c h5
  have hprene : (jsStr "data:" ++ blob.type)
      ++ 59 :: [98, 97, 115, 101, 54, 52] ≠ [] := by
    simp
  rw [stripThroughComma_formatted _ _ hpre hprene]
  show (match atob (base64EncodeBytes blob.content) with
    | Except.error e => Except.error e
    | Except.ok bin =>
        createBlob env (some [binaryStringToArrayBuffer bin])
          (BlobProps.obj (some blob.type)))
      = Except.ok blob
  rw [atob_encodeBytes blob.content hbytes]
  show createBlob env (some [binaryStringToArrayBuffer blob.content])
    (BlobProps.obj (some blob.type)) = Except.ok blob
  rw [binaryStringToArrayBuffer_bytes blob.content hbytes,
    createBlob_native env henv]
  show Except.ok { content := blob.content ++ [], type := blob.type }
    = Except.ok blob
  rw [List.append_nil]

theorem dataURL_roundtrip_amended_witness :
    dataURLRoundTrip nativeEnv true
        { content := [104, 105], type := jsStr "text/plain" } (.loadend true)
      = .ok { content := [104, 105], type := jsStr "text/plain" } :=
  dataURL_roundtrip_amended nativeEnv true
    { content := [104, 105], type := jsStr "text/plain" }
    (fun _ _ => rfl) (by decide) (by decide) (by decide) (by decide)

end BlobUtil
